import Mathlib

/-
Verification of the go-ipc core logic: a shallow embedding in Lean 4 of the
open-mode negotiator, the open-or-create retry loop, the layout validator and
raw transcoder, the memory-region size and offset helpers, the bounded region
writer, and the message-queue notification and permission checks.

Machine integers of the source are modelled as Nat or Int; Go bitwise
operations become Nat.land / Nat.lor; fallible Go functions returning
(value, error) become Except String or carry an explicit Option error.
-/

/-! ## Open-mode flags

Modelled from the spec: the portable open-flag constants O_CREATE_ONLY,
O_OPEN_ONLY, O_OPEN_OR_CREATE, O_READ_ONLY, O_WRITE_ONLY, O_READWRITE are
declared in a file of this repository that is not under src; the spec (sections
3 and 6) requires them to be a bitset of six distinct flags, so they are
modelled as six distinct bits. The os package constants carry the Linux
values. -/

def O_CREATE_ONLY : Nat := 1
def O_OPEN_ONLY : Nat := 2
def O_OPEN_OR_CREATE : Nat := 4
def O_READ_ONLY : Nat := 8
def O_WRITE_ONLY : Nat := 16
def O_READWRITE : Nat := 32

def os_O_RDONLY : Nat := 0
def os_O_WRONLY : Nat := 1
def os_O_RDWR : Nat := 2
def os_O_CREATE : Nat := 64
def os_O_EXCL : Nat := 128
def os_O_TRUNC : Nat := 512

/-- Embedding of accessModeToOsMode from src/common.go lines 26 to 43. -/
def accessModeToOsMode (mode : Nat) : Except String Nat :=
  if mode &&& O_READ_ONLY ≠ 0 then
    if mode &&& (O_WRITE_ONLY ||| O_READWRITE) ≠ 0 then
      Except.error "incompatible open flags"
    else
      Except.ok (0 ||| os_O_RDONLY)
  else if mode &&& O_WRITE_ONLY ≠ 0 then
    if mode &&& O_READWRITE ≠ 0 then
      Except.error "incompatible open flags"
    else
      Except.ok (0 ||| os_O_WRONLY)
  else if mode &&& O_READWRITE ≠ 0 then
    Except.ok (0 ||| os_O_RDWR)
  else
    Except.error "no access mode flags"

/-- Embedding of createModeToOsMode from src/common.go lines 45 to 62. -/
def createModeToOsMode (mode : Nat) : Except String Nat :=
  if mode &&& O_OPEN_OR_CREATE ≠ 0 then
    if mode &&& (O_CREATE_ONLY ||| O_OPEN_ONLY) ≠ 0 then
      Except.error "incompatible open flags"
    else
      Except.ok (os_O_CREATE ||| os_O_TRUNC)
  else if mode &&& O_CREATE_ONLY ≠ 0 then
    if mode &&& O_OPEN_ONLY ≠ 0 then
      Except.error "incompatible open flags"
    else
      Except.ok (os_O_CREATE ||| os_O_EXCL)
  else if mode &&& O_OPEN_ONLY ≠ 0 then
    Except.ok 0
  else
    Except.error "no create mode flags"

/-- Embedding of openModeToOsMode from src/common.go lines 64 to 74. -/
def openModeToOsMode (mode : Nat) : Except String Nat :=
  match createModeToOsMode mode with
  | Except.error e => Except.error e
  | Except.ok createMode =>
    match accessModeToOsMode mode with
    | Except.error e => Except.error e
    | Except.ok accessMode => Except.ok (createMode ||| accessMode)

/-- Builds a mode word from a choice of which of the six flags are set. -/
def buildMode (c1 c2 c3 a1 a2 a3 : Bool) : Nat :=
  (cond c1 O_CREATE_ONLY 0) ||| (cond c2 O_OPEN_ONLY 0) |||
  (cond c3 O_OPEN_OR_CREATE 0) ||| (cond a1 O_READ_ONLY 0) |||
  (cond a2 O_WRITE_ONLY 0) ||| (cond a3 O_READWRITE 0)

/-- Exactly one of three booleans is true. -/
def exactlyOne (a b c : Bool) : Bool :=
  (a && !b && !c) || (!a && b && !c) || (!a && !b && c)

/-! ## The open-or-create protocol

Embedding of openOrCreateFile from src/common.go lines 76 to 104. The Go
function receives an opener callback returning a Go error; each call of the
callback may behave differently, so the callback is modelled by a behaviour
function from the list of osMode arguments of the calls made so far to the
returned error, and the embedding threads that list of calls (the trace) and
returns it alongside the result. -/

/-- Result of one opener call: nil, an error satisfying os.IsExist, an error
satisfying os.IsNotExist, or any other error. The Go nil error is Option.none
around this type. -/
inductive GoErr where
  | exist
  | notExist
  | other (msg : String)
deriving DecidableEq, Repr

/-- Embedding of os.IsExist for the modelled errors. -/
def isExist : Option GoErr → Bool
  | some GoErr.exist => true
  | _ => false

/-- Embedding of os.IsNotExist for the modelled errors. -/
def isNotExist : Option GoErr → Bool
  | some GoErr.notExist => true
  | _ => false

/-- The attempts constant from src/common.go line 88. -/
def openAttempts : Nat := 16

/-- The for loop of the O_OPEN_OR_CREATE branch of openOrCreateFile,
src/common.go lines 91 to 98: try create-exclusive, on an IsExist error try a
plain open, on an IsNotExist error repeat, for the given number of remaining
attempts; the error of the last call is kept when the attempts run out. -/
def openOrCreateLoop (beh : List Nat → Option GoErr) (amode : Nat) :
    Nat → List Nat → Option GoErr → (Bool × Option GoErr) × List Nat
  | 0, tr, lastErr => ((false, lastErr), tr)
  | n + 1, tr, _ =>
    let e1 := beh tr
    let tr1 := tr ++ [amode ||| os_O_CREATE ||| os_O_EXCL]
    if isExist e1 = false then
      ((true, e1), tr1)
    else
      let e2 := beh tr1
      let tr2 := tr1 ++ [amode]
      if isNotExist e2 = false then
        ((false, e2), tr2)
      else
        openOrCreateLoop beh amode n tr2 e2

/-- Embedding of openOrCreateFile from src/common.go lines 76 to 104.
Returns the (bool, error) pair of the source together with the trace of
opener calls that were made. -/
def openOrCreateFile (beh : List Nat → Option GoErr) (mode : Nat) :
    (Bool × Option GoErr) × List Nat :=
  if mode &&& (O_OPEN_ONLY ||| O_CREATE_ONLY) ≠ 0 then
    match openModeToOsMode mode with
    | Except.error e => ((false, some (GoErr.other e)), [])
    | Except.ok osMode =>
      let e := beh []
      if e = none then
        ((decide (mode &&& O_CREATE_ONLY ≠ 0), none), [osMode])
      else
        ((false, e), [osMode])
  else if mode &&& O_OPEN_OR_CREATE ≠ 0 then
    match accessModeToOsMode mode with
    | Except.error e => ((false, some (GoErr.other e)), [])
    | Except.ok amode => openOrCreateLoop beh amode openAttempts [] none
  else
    ((false, some (GoErr.other "unknown open mode")), [])

/-- The expected alternating sequence of opener arguments in the
O_OPEN_OR_CREATE branch: create-exclusive calls at even positions, plain opens
at odd positions. -/
def altCalls (amode : Nat) (k : Nat) : List Nat :=
  (List.range k).map
    (fun i => if i % 2 = 0 then amode ||| os_O_CREATE ||| os_O_EXCL else amode)

/-- The retry protocol of the O_OPEN_OR_CREATE branch, stated about a result
and trace pair r: the trace alternates create-exclusive and plain opens; at
least one and at most 2 * openAttempts calls are made; if the very first
create-exclusive does not fail with IsExist its result is returned at once with
the created flag set; if it fails with IsExist and the plain open does not fail
with IsNotExist, the result of the plain open is returned with the flag clear;
and if all openAttempts rounds fail with IsExist then IsNotExist, the loop ends
after exactly openAttempts iterations with the flag clear and the error of the
last call. -/
def retryProtocol (beh : List Nat → Option GoErr) (amode : Nat)
    (r : (Bool × Option GoErr) × List Nat) : Prop :=
  r.2 = altCalls amode r.2.length ∧
  1 ≤ r.2.length ∧
  r.2.length ≤ 2 * openAttempts ∧
  (beh [] ≠ some GoErr.exist → r = ((true, beh []), altCalls amode 1)) ∧
  (beh [] = some GoErr.exist →
    beh (altCalls amode 1) ≠ some GoErr.notExist →
    r = ((false, beh (altCalls amode 1)), altCalls amode 2)) ∧
  ((∀ k, k < openAttempts →
      beh (altCalls amode (2 * k)) = some GoErr.exist ∧
      beh (altCalls amode (2 * k + 1)) = some GoErr.notExist) →
    r.2.length = 2 * openAttempts ∧ r.1.1 = false ∧
    r.1.2 = beh (altCalls amode (2 * openAttempts - 1)))

/-- An opener call whose osMode contains both os.O_CREATE and os.O_EXCL is a
create-exclusive call: if it succeeds, it is the call that created the
object. -/
def isCreateCall (osMode : Nat) : Bool :=
  osMode &&& (os_O_CREATE ||| os_O_EXCL) = (os_O_CREATE ||| os_O_EXCL)

/-- Walks a trace of opener calls keeping the prefix of calls already seen,
and reports whether some create-exclusive call of the trace succeeded. -/
def createdAux (beh : List Nat → Option GoErr) (pre : List Nat) :
    List Nat → Bool
  | [] => false
  | c :: rest =>
    (isCreateCall c && (beh pre == none)) || createdAux beh (pre ++ [c]) rest

/-- A trace of opener calls created the object when one of its
create-exclusive calls returned a nil error. -/
def createdInTrace (beh : List Nat → Option GoErr) (t : List Nat) : Bool :=
  createdAux beh [] t

/-! ## Layout validator and raw transcoder

Modelled from the spec: checkObject, checkType and alloc of the allocator are
code of this repository that is not under src; only their tests
(src/unnamed/part_001) are. Their behaviour is reconstructed from section 4.3
of the spec together with the assertions of TestCheckObjectType, TestAllocInt,
TestAllocIntArray, TestAllocStruct and TestAllocMutex. In particular,
TestCheckObjectType accepts a top-level slice of a flat element type
(checkObject(arr[:]) on line 40) while rejecting every nested slice, so the
validator carries a nesting depth and admits a growable sequence at depth zero
only. -/

/-- Kinds of Go types as the validator distinguishes them: a fixed-width
numeric scalar (integers, uintptr, floats, complex numbers), a pointer, a
growable slice, a string, a map, a fixed-size array, a struct with a list of
field types, and the whitelisted opaque fixed-layout type sync.Mutex. -/
inductive GoType where
  | num
  | ptr (elem : GoType)
  | slice (elem : GoType)
  | str
  | hashmap (key val : GoType)
  | array (n : Nat) (elem : GoType)
  | strct (fields : List GoType)
  | mutex

mutual

/-- Modelled from the spec: the recursive structural check of the layout
validator over a type and the nesting depth, per section 4.3 and
TestCheckObjectType. Arrays descend into the element; a slice is allowed at
depth zero only and descends into the element; struct fields are checked one
level deeper; pointers, strings and maps are rejected; numeric scalars and the
whitelisted sync.Mutex are accepted. -/
def checkType : GoType → Nat → Bool
  | GoType.num, _ => true
  | GoType.mutex, _ => true
  | GoType.ptr _, _ => false
  | GoType.str, _ => false
  | GoType.hashmap _ _, _ => false
  | GoType.array _ e, d => checkType e (d + 1)
  | GoType.slice e, d => if d = 0 then checkType e (d + 1) else false
  | GoType.strct fs, d => checkFields fs d

/-- Checks every field of a struct one nesting level deeper. -/
def checkFields : List GoType → Nat → Bool
  | [], _ => true
  | f :: fs, d => checkType f (d + 1) && checkFields fs d

end

/-- Modelled from the spec: checkObject validates the layout of a value by
running the structural check on its type at depth zero. -/
def checkObject (t : GoType) : Bool := checkType t 0

mutual

/-- A type is flat when it is built only from numeric scalars, the whitelisted
sync.Mutex, fixed-size arrays of flat types and structs of flat fields; any
pointer, slice, string or map at any depth makes it not flat. -/
def flat : GoType → Bool
  | GoType.num => true
  | GoType.mutex => true
  | GoType.array _ e => flat e
  | GoType.strct fs => flatFields fs
  | _ => false

/-- Every field of the list is flat. -/
def flatFields : List GoType → Bool
  | [] => true
  | f :: fs => flat f && flatFields fs

end

/-- A flat value: a fixed-width scalar of a given byte width holding a
numeric value, or an aggregate (fixed array or struct) of flat values laid out
one after the other. -/
inductive FlatVal where
  | word (width : Nat) (val : Nat)
  | agg (elems : List FlatVal)

/-- The shape (type) of a flat value, which a reader must supply. -/
inductive Shape where
  | word (width : Nat)
  | agg (shapes : List Shape)

mutual

/-- The shape of a flat value. -/
def shapeOf : FlatVal → Shape
  | FlatVal.word w _ => Shape.word w
  | FlatVal.agg es => Shape.agg (shapeOfList es)

/-- The shapes of a list of flat values. -/
def shapeOfList : List FlatVal → List Shape
  | [] => []
  | v :: vs => shapeOf v :: shapeOfList vs

end

/-- The little-endian bytes of a value in the given number of bytes. -/
def natToBytes : Nat → Nat → List Nat
  | 0, _ => []
  | w + 1, v => v % 256 :: natToBytes w (v / 256)

/-- The value of a little-endian byte list. -/
def bytesToNat : List Nat → Nat
  | [] => 0
  | b :: bs => b + 256 * bytesToNat bs

mutual

/-- Modelled from the spec: the raw byte representation of a flat value, as
alloc copies it into a buffer; a scalar contributes its little-endian bytes
and an aggregate the concatenation of its elements. -/
def serialize : FlatVal → List Nat
  | FlatVal.word w v => natToBytes w v
  | FlatVal.agg es => serializeList es

/-- The concatenated representation of a list of flat values. -/
def serializeList : List FlatVal → List Nat
  | [] => []
  | v :: vs => serialize v ++ serializeList vs

end

/-- The footprint of a flat value: the exact byte length of its
representation. -/
def footprint (v : FlatVal) : Nat := (serialize v).length

mutual

/-- A flat value is wellformed when every scalar value fits its width. -/
def validVal : FlatVal → Bool
  | FlatVal.word w v => decide (v < 256 ^ w)
  | FlatVal.agg es => validList es

/-- Every value of the list is wellformed. -/
def validList : List FlatVal → Bool
  | [] => true
  | v :: vs => validVal v && validList vs

end

mutual

/-- Modelled from the spec: reading a flat value of a given shape back from
the front of a buffer, returning the value and the remaining bytes, or none
when the buffer is too small. -/
def readVal : Shape → List Nat → Option (FlatVal × List Nat)
  | Shape.word w, buf =>
    if w ≤ buf.length then
      some (FlatVal.word w (bytesToNat (buf.take w)), buf.drop w)
    else
      none
  | Shape.agg ss, buf =>
    match readList ss buf with
    | none => none
    | some (vs, rest) => some (FlatVal.agg vs, rest)

/-- Reads a list of flat values of the given shapes one after the other. -/
def readList : List Shape → List Nat → Option (List FlatVal × List Nat)
  | [], buf => some ([], buf)
  | s :: ss, buf =>
    match readVal s buf with
    | none => none
    | some (v, rest) =>
      match readList ss rest with
      | none => none
      | some (vs, r2) => some (v :: vs, r2)

end

/-- Modelled from the spec: writeInto fails with BufferTooSmall when the
buffer is shorter than the footprint of the value, and otherwise copies the
raw bytes of the value to the front of the buffer, exactly footprint many,
leaving the rest of the buffer unchanged. -/
def writeInto (buf : List Nat) (v : FlatVal) : Except String (List Nat) :=
  if buf.length < footprint v then
    Except.error "BufferTooSmall"
  else
    Except.ok (serialize v ++ buf.drop (footprint v))

/-- Modelled from the spec: readFrom reads a value of the supplied shape from
the buffer, failing with BufferTooSmall when the buffer is shorter than the
footprint of that shape. -/
def readFrom (buf : List Nat) (s : Shape) : Except String FlatVal :=
  match readVal s buf with
  | some (v, _) => Except.ok v
  | none => Except.error "BufferTooSmall"

/-- The round-trip contract of the transcoder for a flat value v and a
buffer at least as long as the footprint of v: writeInto succeeds and
returns the buffer whose first footprint bytes are the representation of v
and whose remaining bytes are unchanged, the buffer keeps its length, and
reading the written buffer back at the shape of v yields v. -/
def roundtripSpec (v : FlatVal) (buf : List Nat) : Prop :=
  writeInto buf v = Except.ok (serialize v ++ buf.drop (footprint v)) ∧
  (serialize v ++ buf.drop (footprint v)).length = buf.length ∧
  (serialize v ++ buf.drop (footprint v)).take (footprint v) = serialize v ∧
  (serialize v ++ buf.drop (footprint v)).drop (footprint v) =
    buf.drop (footprint v) ∧
  readFrom (serialize v ++ buf.drop (footprint v)) (shapeOf v) = Except.ok v

/-! ## Memory region helpers -/

/-- Model of a Mappable object as checkMmapSize and fileSizeFromFd see it:
whether Fd() is a valid descriptor (not the all-ones value), whether the
object implements the fileInfoGetter interface, and what its Stat call
returns. -/
structure MappableModel where
  fdValid : Bool
  hasStat : Bool
  statResult : Except String Int

/-- Embedding of fileSizeFromFd from src/memory_region.go lines 146 to 158:
objects with an invalid descriptor report size zero; objects implementing
fileInfoGetter report the Stat size or propagate the Stat error; every other
object reports size zero. -/
def fileSizeFromFd (f : MappableModel) : Except String Int :=
  if f.fdValid = false then
    Except.ok 0
  else if f.hasStat then
    match f.statResult with
    | Except.error e => Except.error e
    | Except.ok sz => Except.ok sz
  else
    Except.ok 0

/-- Embedding of checkMmapSize from src/memory_region.go lines 160 to 172. -/
def checkMmapSize (f : MappableModel) (size : Int) : Except String Int :=
  if size = 0 then
    if f.fdValid = false then
      Except.error "must provide a valid file size"
    else
      match fileSizeFromFd f with
      | Except.ok sz => Except.ok sz
      | Except.error e => Except.error e
  else
    Except.ok size

/-- Embedding of calcMmapOffsetFixup from src/memory_region.go lines 136 to
139; the platform function mmapOffsetMultiple is passed as a parameter and Go
integer division truncates toward zero, which Int.tdiv models. -/
def calcMmapOffsetFixup (mmapOffsetMultiple : Int) (offset : Int) : Int :=
  let pageSize := mmapOffsetMultiple
  offset - (Int.tdiv offset pageSize) * pageSize

/-- Result of a WriteAt call: the returned count, whether the returned error
is io.EOF, and the region data after the call. -/
structure WriteAtResult where
  n : Int
  eof : Bool
  data : List Nat

/-- Embedding of MemoryRegionWriter.WriteAt from src/memory_region.go lines
116 to 129 over the region data, the slice p and the offset: n is the
remaining region length from the offset; when positive it is clamped to the
length of p and that many bytes of p are copied into the region at the
offset; the error is io.EOF exactly when the final n is less than the length
of p. -/
def writeAt (data : List Nat) (p : List Nat) (off : Nat) : WriteAtResult :=
  let n0 : Int := (data.length : Int) - (off : Int)
  if 0 < n0 then
    let n1 : Int := if (p.length : Int) < n0 then (p.length : Int) else n0
    { n := n1,
      eof := decide (n1 < (p.length : Int)),
      data := data.take off ++ p.take n1.toNat ++ data.drop (off + n1.toNat) }
  else
    { n := n0, eof := decide (n0 < (p.length : Int)), data := data }

/-- The bounded-write contract for a WriteAt result over a region of the
given data, a slice p and an offset not past the end: with k the minimum of
the length of p and the remaining region length, the returned count is k, the
region keeps its length, the bytes before the offset and from offset plus k
on are unchanged, the k bytes at the offset are the first k bytes of p, and
the error is io.EOF exactly when k is less than the length of p. -/
def writeAtSpec (data p : List Nat) (off : Nat) (r : WriteAtResult) : Prop :=
  r.n = ((min p.length (data.length - off) : Nat) : Int) ∧
  r.data.length = data.length ∧
  r.data.take off = data.take off ∧
  r.data.drop (off + min p.length (data.length - off)) =
    data.drop (off + min p.length (data.length - off)) ∧
  (r.data.drop off).take (min p.length (data.length - off)) =
    p.take (min p.length (data.length - off)) ∧
  (r.eof = true ↔ min p.length (data.length - off) < p.length)

/-! ## Message queue -/

/-- Modelled from the spec: the notification state of a message-queue handle,
which holds at most one subscribed channel; the Notify and NotifyCancel
implementations are code of this repository that is not under src (only
TestMqNotifyTwice is), so they are reconstructed from sections 3 and 4.5 of
the spec. -/
structure MqHandle where
  subscriber : Option Nat

/-- Modelled from the spec: Notify registers the channel as the single
subscriber when none is active and fails with AlreadySubscribed while one is
active. -/
def mqNotify (h : MqHandle) (ch : Nat) : Except String MqHandle :=
  match h.subscriber with
  | some _ => Except.error "AlreadySubscribed"
  | none => Except.ok { subscriber := some ch }

/-- Modelled from the spec: NotifyCancel clears the subscription and always
succeeds, so it is idempotent. -/
def mqNotifyCancel (_h : MqHandle) : Except String MqHandle :=
  Except.ok { subscriber := none }

/-- Embedding of checkMqPerm from src/unnamed/part_000 lines 47 to 49. -/
def checkMqPerm (perm : Nat) : Bool := perm &&& 0o111 == 0

/-- C1: for every combination of the six open-mode flags, openModeToOsMode
(composed of createModeToOsMode and accessModeToOsMode) succeeds if and only if
exactly one create-mode flag (O_CREATE_ONLY, O_OPEN_ONLY, O_OPEN_OR_CREATE) and
exactly one access-mode flag (O_READ_ONLY, O_WRITE_ONLY, O_READWRITE) is set;
every other combination returns an error. -/
theorem openModeToOsMode_exactlyOne (c1 c2 c3 a1 a2 a3 : Bool) :
    (openModeToOsMode (buildMode c1 c2 c3 a1 a2 a3)).isOk =
      (exactlyOne c1 c2 c3 && exactlyOne a1 a2 a3) := by
  revert c1 c2 c3 a1 a2 a3
  decide

/-! ## Helper lemmas -/

theorem land_mask_mod (x c n : Nat) (hc : (2 ^ n - 1) &&& c = c) :
    x &&& c = (x % 2 ^ n) &&& c := by
  conv_lhs => rw [← hc]
  rw [← Nat.and_assoc, Nat.and_pow_two_sub_one_eq_mod]

/-- C10: the message-queue permission validator checkMqPerm accepts a
permission mask if and only if it contains no execute bit: neither the owner
execute bit 0o100, nor the group execute bit 0o10, nor the other execute bit
0o1 is set. -/
theorem checkMqPerm_iff (perm : Nat) :
    checkMqPerm perm = true ↔
      (perm &&& 0o100 = 0 ∧ perm &&& 0o10 = 0 ∧ perm &&& 0o1 = 0) := by
  have key : ∀ r, r < 128 →
      (((r &&& 73 == 0) = true) ↔ (r &&& 64 = 0 ∧ r &&& 8 = 0 ∧ r &&& 1 = 0)) := by
    decide
  unfold checkMqPerm
  rw [land_mask_mod perm 73 7 (by decide), land_mask_mod perm 64 7 (by decide),
    land_mask_mod perm 8 7 (by decide), land_mask_mod perm 1 7 (by decide)]
  exact key (perm % 128) (Nat.mod_lt perm (by decide))

/-- C8: for a positive mmap offset multiple and a non-negative offset, the
fixup computed by calcMmapOffsetFixup equals the offset modulo the multiple,
the offset minus the fixup is an exact multiple of the granularity, and the
fixup lies in the interval from zero up to but excluding the granularity. -/
theorem calcMmapOffsetFixup_mod (g offset : Int) (hg : 0 < g)
    (hoff : 0 ≤ offset) :
    calcMmapOffsetFixup g offset = offset % g ∧
    g ∣ (offset - calcMmapOffsetFixup g offset) ∧
    0 ≤ calcMmapOffsetFixup g offset ∧ calcMmapOffsetFixup g offset < g := by
  have hdiv : Int.tdiv offset g = offset / g :=
    Int.tdiv_eq_ediv hoff (le_of_lt hg)
  have h1 : calcMmapOffsetFixup g offset = offset % g := by
    show offset - Int.tdiv offset g * g = offset % g
    rw [hdiv, Int.emod_def, Int.mul_comm]
  refine ⟨h1, ⟨offset / g, ?_⟩, ?_, ?_⟩
  · rw [h1, Int.emod_def]; ring
  · rw [h1]; exact Int.emod_nonneg offset (ne_of_gt hg)
  · rw [h1]; exact Int.emod_lt_of_pos offset hg

/-- Witness for C8 at granularity 4096 and offset 5000. -/
theorem calcMmapOffsetFixup_mod_witness :
    calcMmapOffsetFixup 4096 5000 = 5000 % 4096 ∧
    (4096 : Int) ∣ (5000 - calcMmapOffsetFixup 4096 5000) ∧
    0 ≤ calcMmapOffsetFixup 4096 5000 ∧ calcMmapOffsetFixup 4096 5000 < 4096 :=
  calcMmapOffsetFixup_mod 4096 5000 (by decide) (by decide)

/-- C6: checkMmapSize fails exactly when the caller passes size zero and the
object cannot report its own size, that is, its descriptor is invalid or its
own size query fileSizeFromFd fails; when the caller passes size zero and the
object exposes a size, the resolved size is the reported size; and a nonzero
caller-supplied size is returned unchanged. -/
theorem checkMmapSize_spec (f : MappableModel) (size : Int) :
    ((checkMmapSize f size).isOk = false ↔
      size = 0 ∧ (f.fdValid = false ∨ (fileSizeFromFd f).isOk = false)) ∧
    (∀ sz : Int, size = 0 → f.fdValid = true →
      fileSizeFromFd f = Except.ok sz → checkMmapSize f size = Except.ok sz) ∧
    (size ≠ 0 → checkMmapSize f size = Except.ok size) := by
  rcases f with ⟨fd, hst, sr⟩
  by_cases hs : size = 0 <;>
    cases fd <;> cases hst <;> rcases sr with e | sz <;>
    simp_all [checkMmapSize, fileSizeFromFd, Except.isOk, Except.toBool]

/-- Witness for C6: a stat-backed object of size 42 resolves a zero size to
42, and a nonzero size 5 is returned unchanged. -/
theorem checkMmapSize_spec_witness :
    checkMmapSize ⟨true, true, Except.ok 42⟩ 0 = Except.ok 42 ∧
    checkMmapSize ⟨true, true, Except.ok 42⟩ 5 = Except.ok 5 :=
  ⟨(checkMmapSize_spec ⟨true, true, Except.ok 42⟩ 0).2.1 42 rfl rfl rfl,
   (checkMmapSize_spec ⟨true, true, Except.ok 42⟩ 5).2.2 (by decide)⟩

/-- C9: on a handle with no active subscription, Notify succeeds and
registers the single subscriber; a second Notify while that one is active
fails with AlreadySubscribed; NotifyCancel clears the subscription, after
which Notify succeeds again; and NotifyCancel is idempotent, a second cancel
returning success with the same cleared handle. -/
theorem mqNotify_protocol (h : MqHandle) (ch1 ch2 ch3 : Nat)
    (hsub : h.subscriber = none) :
    ∃ h1 h2 : MqHandle,
      mqNotify h ch1 = Except.ok h1 ∧
      mqNotify h1 ch2 = Except.error "AlreadySubscribed" ∧
      mqNotifyCancel h1 = Except.ok h2 ∧
      (∃ h3, mqNotify h2 ch3 = Except.ok h3) ∧
      mqNotifyCancel h2 = Except.ok h2 := by
  rcases h with ⟨sub⟩
  simp only [MqHandle.mk.injEq] at hsub
  subst hsub
  exact ⟨⟨some ch1⟩, ⟨none⟩, rfl, rfl, rfl, ⟨⟨some ch3⟩, rfl⟩, rfl⟩

/-- Witness for C9 on a fresh handle and channels 1, 2, 3. -/
theorem mqNotify_protocol_witness :
    ∃ h1 h2 : MqHandle,
      mqNotify ⟨none⟩ 1 = Except.ok h1 ∧
      mqNotify h1 2 = Except.error "AlreadySubscribed" ∧
      mqNotifyCancel h1 = Except.ok h2 ∧
      (∃ h3, mqNotify h2 3 = Except.ok h3) ∧
      mqNotifyCancel h2 = Except.ok h2 :=
  mqNotify_protocol ⟨none⟩ 1 2 3 rfl

theorem take_append_length (A B : List Nat) (n : Nat) (h : A.length = n) :
    (A ++ B).take n = A := by
  subst h
  exact List.take_left A B

theorem drop_append_length (A B : List Nat) (n : Nat) (h : A.length = n) :
    (A ++ B).drop n = B := by
  subst h
  exact List.drop_left A B

/-- C7 counterexample: with a region of two bytes, an empty slice p and
offset 3, WriteAt copies nothing and zero bytes equal the length of p, yet it
returns io.EOF (and the count -1), so the returned error is not io.EOF
exactly when fewer than the length of p bytes were written, and the count is
not the number of copied bytes. -/
theorem writeAt_eof_cex :
    (writeAt [0, 0] [] 3).eof = true ∧ (writeAt [0, 0] [] 3).data = [0, 0] ∧
    (writeAt [0, 0] [] 3).n = -1 :=
  ⟨rfl, rfl, rfl⟩

/-- C7 amended: for every region data, slice p and offset that is at most the
region length, WriteAt copies exactly min of the length of p and the
remaining region length bytes into the region at the offset, leaves every
byte outside that range unchanged, and returns io.EOF exactly when fewer than
the length of p bytes were written. -/
theorem writeAt_bounded (data p : List Nat) (off : Nat)
    (hoff : off ≤ data.length) : writeAtSpec data p off (writeAt data p off) := by
  unfold writeAtSpec writeAt
  dsimp only
  split_ifs with h1 h2
  · -- off < data.length and p.length < remaining: k = p.length
    dsimp only
    have hplt : p.length < data.length - off := by omega
    have hk : min p.length (data.length - off) = p.length := by omega
    have htn : ((p.length : Int)).toNat = p.length := by omega
    rw [htn, hk, List.take_length]
    have hA : (data.take off).length = off := by
      rw [List.length_take]; omega
    have hAB : (data.take off ++ p).length = off + p.length := by
      rw [List.length_append, hA]
    refine ⟨by omega, ?_, ?_, ?_, ?_, ?_⟩
    · rw [List.length_append, List.length_append, hA, List.length_drop]
      omega
    · rw [List.append_assoc]
      exact take_append_length _ _ _ hA
    · exact drop_append_length _ _ _ hAB
    · rw [List.append_assoc, drop_append_length _ _ _ hA]
      exact take_append_length _ _ _ rfl
    · simp only [decide_eq_true_eq]
      omega
  · -- off < data.length and remaining ≤ p.length: k = data.length - off
    dsimp only
    have hge : data.length - off ≤ p.length := by omega
    have hk : min p.length (data.length - off) = data.length - off := by omega
    have htn : ((data.length : Int) - (off : Int)).toNat = data.length - off := by
      omega
    rw [htn, hk]
    have hA : (data.take off).length = off := by
      rw [List.length_take]; omega
    have hptk : (p.take (data.length - off)).length = data.length - off := by
      rw [List.length_take]; omega
    have hAB : (data.take off ++ p.take (data.length - off)).length =
        off + (data.length - off) := by
      rw [List.length_append, hA, hptk]
    refine ⟨by omega, ?_, ?_, ?_, ?_, ?_⟩
    · rw [List.length_append, List.length_append, hA, hptk, List.length_drop]
      omega
    · rw [List.append_assoc]
      exact take_append_length _ _ _ hA
    · exact drop_append_length _ _ _ hAB
    · rw [List.append_assoc, drop_append_length _ _ _ hA]
      exact take_append_length _ _ _ hptk
    · simp only [decide_eq_true_eq]
      omega
  · -- off = data.length: nothing is copied
    dsimp only
    have heq : off = data.length := by omega
    have hk : min p.length (data.length - off) = 0 := by omega
    rw [hk]
    refine ⟨by omega, rfl, rfl, rfl, by simp, ?_⟩
    simp only [decide_eq_true_eq]
    omega

/-- Witness for the amended C7: a three-byte region, a two-byte slice and
offset 1. -/
theorem writeAt_bounded_witness :
    writeAtSpec [10, 11, 12] [7, 8] 1 (writeAt [10, 11, 12] [7, 8] 1) :=
  writeAt_bounded [10, 11, 12] [7, 8] 1 (by decide)

theorem altCalls_zero (a : Nat) : altCalls a 0 = [] := rfl

theorem altCalls_length (a k : Nat) : (altCalls a k).length = k := by
  simp [altCalls]

theorem altCalls_succ (a k : Nat) :
    altCalls a (k + 1) = altCalls a k ++
      [if k % 2 = 0 then a ||| os_O_CREATE ||| os_O_EXCL else a] := by
  simp [altCalls, List.range_succ]

theorem altCalls_even_succ (a d : Nat) :
    altCalls a (2 * d + 1) =
      altCalls a (2 * d) ++ [a ||| os_O_CREATE ||| os_O_EXCL] := by
  rw [altCalls_succ]
  simp [Nat.mul_mod_right]

theorem altCalls_odd_succ (a d : Nat) :
    altCalls a (2 * d + 2) = altCalls a (2 * d + 1) ++ [a] := by
  rw [altCalls_succ]
  have h : (2 * d + 1) % 2 = 1 := by omega
  simp [h]

theorem isExist_eq_false_iff (e : Option GoErr) :
    isExist e = false ↔ e ≠ some GoErr.exist := by
  cases e with
  | none => simp [isExist]
  | some g => cases g <;> simp [isExist]

theorem isNotExist_eq_false_iff (e : Option GoErr) :
    isNotExist e = false ↔ e ≠ some GoErr.notExist := by
  cases e with
  | none => simp [isNotExist]
  | some g => cases g <;> simp [isNotExist]

theorem openOrCreateLoop_succ_create (beh : List Nat → Option GoErr)
    (amode n : Nat) (tr : List Nat) (last : Option GoErr)
    (h : isExist (beh tr) = false) :
    openOrCreateLoop beh amode (n + 1) tr last =
      ((true, beh tr), tr ++ [amode ||| os_O_CREATE ||| os_O_EXCL]) := by
  simp [openOrCreateLoop, h]

theorem openOrCreateLoop_succ_open (beh : List Nat → Option GoErr)
    (amode n : Nat) (tr : List Nat) (last : Option GoErr)
    (h1 : isExist (beh tr) = true)
    (h2 : isNotExist (beh (tr ++ [amode ||| os_O_CREATE ||| os_O_EXCL])) = false) :
    openOrCreateLoop beh amode (n + 1) tr last =
      ((false, beh (tr ++ [amode ||| os_O_CREATE ||| os_O_EXCL])),
        (tr ++ [amode ||| os_O_CREATE ||| os_O_EXCL]) ++ [amode]) := by
  simp [openOrCreateLoop, h1, h2]

theorem openOrCreateLoop_succ_next (beh : List Nat → Option GoErr)
    (amode n : Nat) (tr : List Nat) (last : Option GoErr)
    (h1 : isExist (beh tr) = true)
    (h2 : isNotExist (beh (tr ++ [amode ||| os_O_CREATE ||| os_O_EXCL])) = true) :
    openOrCreateLoop beh amode (n + 1) tr last =
      openOrCreateLoop beh amode n
        ((tr ++ [amode ||| os_O_CREATE ||| os_O_EXCL]) ++ [amode])
        (beh (tr ++ [amode ||| os_O_CREATE ||| os_O_EXCL])) := by
  simp [openOrCreateLoop, h1, h2]

theorem openOrCreateLoop_trace (beh : List Nat → Option GoErr) (amode : Nat) :
    ∀ (n d : Nat) (last : Option GoErr),
    ∃ m, (openOrCreateLoop beh amode n (altCalls amode (2 * d)) last).2 =
        altCalls amode m ∧
      2 * d ≤ m ∧ m ≤ 2 * d + 2 * n ∧ (n ≠ 0 → 2 * d + 1 ≤ m) := by
  intro n
  induction n with
  | zero =>
    intro d last
    exact ⟨2 * d, by simp [openOrCreateLoop], le_refl _, by omega, by omega⟩
  | succ n ih =>
    intro d last
    by_cases h1 : isExist (beh (altCalls amode (2 * d))) = false
    · refine ⟨2 * d + 1, ?_, by omega, by omega, by omega⟩
      rw [openOrCreateLoop_succ_create beh amode n _ last h1]
      exact (altCalls_even_succ amode d).symm
    · have h1t : isExist (beh (altCalls amode (2 * d))) = true := by
        revert h1
        cases isExist (beh (altCalls amode (2 * d))) <;> simp
      by_cases h2 : isNotExist
          (beh (altCalls amode (2 * d) ++
            [amode ||| os_O_CREATE ||| os_O_EXCL])) = false
      · refine ⟨2 * d + 2, ?_, by omega, by omega, by omega⟩
        rw [openOrCreateLoop_succ_open beh amode n _ last h1t h2]
        show (altCalls amode (2 * d) ++ [amode ||| os_O_CREATE ||| os_O_EXCL]) ++
            [amode] = altCalls amode (2 * d + 2)
        rw [← altCalls_even_succ, ← altCalls_odd_succ]
      · have h2t : isNotExist
            (beh (altCalls amode (2 * d) ++
              [amode ||| os_O_CREATE ||| os_O_EXCL])) = true := by
          revert h2
          cases isNotExist (beh (altCalls amode (2 * d) ++
            [amode ||| os_O_CREATE ||| os_O_EXCL])) <;> simp
        rw [openOrCreateLoop_succ_next beh amode n _ last h1t h2t]
        have harg : (altCalls amode (2 * d) ++
            [amode ||| os_O_CREATE ||| os_O_EXCL]) ++ [amode] =
            altCalls amode (2 * (d + 1)) := by
          rw [← altCalls_even_succ, ← altCalls_odd_succ]
          have h22 : 2 * d + 2 = 2 * (d + 1) := by ring
          rw [h22]
        rw [harg]
        obtain ⟨m, hm, hm1, hm2, hm3⟩ :=
          ih (d + 1) (beh (altCalls amode (2 * d) ++
            [amode ||| os_O_CREATE ||| os_O_EXCL]))
        exact ⟨m, hm, by omega, by omega, by omega⟩

theorem openOrCreateLoop_exhaust (beh : List Nat → Option GoErr) (amode : Nat) :
    ∀ (n d : Nat) (last : Option GoErr), n ≠ 0 →
    (∀ k, d ≤ k → k < d + n →
      beh (altCalls amode (2 * k)) = some GoErr.exist ∧
      beh (altCalls amode (2 * k + 1)) = some GoErr.notExist) →
    openOrCreateLoop beh amode n (altCalls amode (2 * d)) last =
      ((false, beh (altCalls amode (2 * (d + n) - 1))),
        altCalls amode (2 * (d + n))) := by
  intro n
  induction n with
  | zero => intro d last h0; exact absurd rfl h0
  | succ n ih =>
    intro d last _ hall
    have hk := hall d (le_refl d) (by omega)
    have h1 : isExist (beh (altCalls amode (2 * d))) = true := by
      rw [hk.1]; rfl
    have h2pre : beh (altCalls amode (2 * d) ++
        [amode ||| os_O_CREATE ||| os_O_EXCL]) = some GoErr.notExist := by
      rw [← altCalls_even_succ]
      exact hk.2
    have h2 : isNotExist (beh (altCalls amode (2 * d) ++
        [amode ||| os_O_CREATE ||| os_O_EXCL])) = true := by
      rw [h2pre]; rfl
    rw [openOrCreateLoop_succ_next beh amode n _ last h1 h2]
    have harg : (altCalls amode (2 * d) ++
        [amode ||| os_O_CREATE ||| os_O_EXCL]) ++ [amode] =
        altCalls amode (2 * (d + 1)) := by
      rw [← altCalls_even_succ, ← altCalls_odd_succ]
      have h22 : 2 * d + 2 = 2 * (d + 1) := by ring
      rw [h22]
    rw [harg]
    by_cases hn : n = 0
    · subst hn
      simp only [openOrCreateLoop]
      have h21 : 2 * (d + 1) - 1 = 2 * d + 1 := by omega
      rw [h21, altCalls_even_succ]
    · have hrec := ih (d + 1)
        (beh (altCalls amode (2 * d) ++ [amode ||| os_O_CREATE ||| os_O_EXCL]))
        hn (fun k hk1 hk2 => hall k (by omega) (by omega))
      rw [hrec]
      have hdn : d + 1 + n = d + (n + 1) := by omega
      rw [hdn]

/-- C2: in the O_OPEN_OR_CREATE branch with a valid access mode, every run of
openOrCreateFile follows the retry protocol: the trace of opener calls
alternates create-exclusive and plain opens starting with a create-exclusive;
a create-exclusive result other than an IsExist error is returned at once
with the created flag, a plain-open result other than an IsNotExist error is
returned with the flag clear, and when every round fails with IsExist then
IsNotExist, the loop stops after exactly openAttempts = 16 iterations (32
opener calls) and surfaces the error of the last call. -/
theorem openOrCreateFile_retryProtocol (mode : Nat)
    (beh : List Nat → Option GoErr) (amode : Nat)
    (h1 : mode &&& (O_OPEN_ONLY ||| O_CREATE_ONLY) = 0)
    (h2 : mode &&& O_OPEN_OR_CREATE ≠ 0)
    (h3 : accessModeToOsMode mode = Except.ok amode) :
    retryProtocol beh amode (openOrCreateFile beh mode) := by
  have hfile : openOrCreateFile beh mode =
      openOrCreateLoop beh amode openAttempts [] none := by
    unfold openOrCreateFile
    rw [h1, h3]
    simp [h2]
  rw [hfile]
  unfold retryProtocol
  have ht := openOrCreateLoop_trace beh amode openAttempts 0 none
  simp only [Nat.mul_zero, altCalls_zero, Nat.zero_add] at ht
  obtain ⟨m, hm, _, hm2, hm3⟩ := ht
  refine ⟨?_, ?_, ?_, ?_, ?_, ?_⟩
  · rw [hm, altCalls_length]
  · rw [hm, altCalls_length]
    have := hm3 (by decide)
    omega
  · rw [hm, altCalls_length]
    omega
  · intro hne
    have hf : isExist (beh []) = false := (isExist_eq_false_iff _).mpr hne
    have e1 : altCalls amode 1 = [amode ||| os_O_CREATE ||| os_O_EXCL] := by
      simp [altCalls, List.range_succ]
    rw [e1]
    exact openOrCreateLoop_succ_create beh amode 15 [] none hf
  · intro hex hne
    have hf1 : isExist (beh []) = true := by rw [hex]; rfl
    have hf2 : isNotExist (beh (altCalls amode 1)) = false :=
      (isNotExist_eq_false_iff _).mpr hne
    have e1 : altCalls amode 1 = [amode ||| os_O_CREATE ||| os_O_EXCL] := by
      simp [altCalls, List.range_succ]
    have e2 : altCalls amode 2 =
        [amode ||| os_O_CREATE ||| os_O_EXCL, amode] := by
      simp [altCalls, List.range_succ]
    rw [e1] at hf2
    rw [e1, e2]
    exact openOrCreateLoop_succ_open beh amode 15 [] none hf1 hf2
  · intro hall
    have he := openOrCreateLoop_exhaust beh amode openAttempts 0 none
      (by decide) (fun k hk0 hklt => hall k (by omega))
    simp only [Nat.mul_zero, altCalls_zero, Nat.zero_add] at he
    rw [he]
    exact ⟨altCalls_length _ _, rfl, rfl⟩

/-- Witness for C2 with mode O_OPEN_OR_CREATE plus O_READWRITE and an opener
that always succeeds. -/
theorem openOrCreateFile_retryProtocol_witness :
    retryProtocol (fun _ => none) 2
      (openOrCreateFile (fun _ => none) (O_OPEN_OR_CREATE ||| O_READWRITE)) :=
  openOrCreateFile_retryProtocol (O_OPEN_OR_CREATE ||| O_READWRITE)
    (fun _ => none) 2 (by decide) (by decide) rfl

theorem isExist_eq_true_iff (e : Option GoErr) :
    isExist e = true ↔ e = some GoErr.exist := by
  cases e with
  | none => simp [isExist]
  | some g => cases g <;> simp [isExist]

theorem isNotExist_eq_true_iff (e : Option GoErr) :
    isNotExist e = true ↔ e = some GoErr.notExist := by
  cases e with
  | none => simp [isNotExist]
  | some g => cases g <;> simp [isNotExist]

theorem createdAux_append (beh : List Nat → Option GoErr) :
    ∀ (t u pre : List Nat),
    createdAux beh pre (t ++ u) =
      (createdAux beh pre t || createdAux beh (pre ++ t) u) := by
  intro t
  induction t with
  | nil => intro u pre; simp [createdAux]
  | cons c t ih =>
    intro u pre
    show ((isCreateCall c && (beh pre == none)) ||
        createdAux beh (pre ++ [c]) (t ++ u)) =
      (((isCreateCall c && (beh pre == none)) ||
          createdAux beh (pre ++ [c]) t) ||
        createdAux beh (pre ++ (c :: t)) u)
    rw [ih, Bool.or_assoc]
    have hp : pre ++ (c :: t) = (pre ++ [c]) ++ t := by simp
    rw [hp]

theorem isCreateCall_plain (a : Nat) (ha : a = 0 ∨ a = 1 ∨ a = 2) :
    isCreateCall a = false := by
  rcases ha with h | h | h <;> subst h <;> decide

theorem isCreateCall_cx (a : Nat) (ha : a = 0 ∨ a = 1 ∨ a = 2) :
    isCreateCall (a ||| os_O_CREATE ||| os_O_EXCL) = true := by
  rcases ha with h | h | h <;> subst h <;> decide

theorem accessModeToOsMode_ok_cases (mode a : Nat)
    (h : accessModeToOsMode mode = Except.ok a) : a = 0 ∨ a = 1 ∨ a = 2 := by
  unfold accessModeToOsMode at h
  split_ifs at h
  all_goals injection h with h2
  · left; rw [← h2]; decide
  · right; left; rw [← h2]; decide
  · right; right; rw [← h2]; decide

theorem openModeToOsMode_createCall (mode osMode : Nat)
    (hb1 : mode &&& (O_OPEN_ONLY ||| O_CREATE_ONLY) ≠ 0)
    (h : openModeToOsMode mode = Except.ok osMode) :
    isCreateCall osMode = decide (mode &&& O_CREATE_ONLY ≠ 0) := by
  unfold openModeToOsMode at h
  cases hc : createModeToOsMode mode with
  | error e => rw [hc] at h; exact Except.noConfusion h
  | ok c =>
    rw [hc] at h
    cases ha : accessModeToOsMode mode with
    | error e => rw [ha] at h; exact Except.noConfusion h
    | ok a =>
      rw [ha] at h
      injection h with h2
      have hacc := accessModeToOsMode_ok_cases mode a ha
      have hmask : mode &&& (O_CREATE_ONLY ||| O_OPEN_ONLY) ≠ 0 := by
        have hsw : O_OPEN_ONLY ||| O_CREATE_ONLY =
            O_CREATE_ONLY ||| O_OPEN_ONLY := by decide
        rw [hsw] at hb1
        exact hb1
      unfold createModeToOsMode at hc
      by_cases g1 : mode &&& O_OPEN_OR_CREATE ≠ 0
      · rw [if_pos g1, if_pos hmask] at hc
        exact Except.noConfusion hc
      · rw [if_neg g1] at hc
        by_cases g3 : mode &&& O_CREATE_ONLY ≠ 0
        · rw [if_pos g3] at hc
          by_cases g4 : mode &&& O_OPEN_ONLY ≠ 0
          · rw [if_pos g4] at hc
            exact Except.noConfusion hc
          · rw [if_neg g4] at hc
            injection hc with hc2
            rw [← h2, ← hc2, decide_eq_true (by exact g3)]
            rcases hacc with h3 | h3 | h3 <;> subst h3 <;> decide
        · rw [if_neg g3] at hc
          by_cases g5 : mode &&& O_OPEN_ONLY ≠ 0
          · rw [if_pos g5] at hc
            injection hc with hc2
            rw [← h2, ← hc2, decide_eq_false g3]
            rcases hacc with h3 | h3 | h3 <;> subst h3 <;> decide
          · rw [if_neg g5] at hc
            exact Except.noConfusion hc

theorem openOrCreateLoop_created (beh : List Nat → Option GoErr) (amode : Nat)
    (ha : amode = 0 ∨ amode = 1 ∨ amode = 2) :
    ∀ (n : Nat) (tr : List Nat) (last : Option GoErr),
    createdAux beh [] tr = false →
    (openOrCreateLoop beh amode n tr last).1.2 = none →
    ((openOrCreateLoop beh amode n tr last).1.1 = true ↔
      createdInTrace beh (openOrCreateLoop beh amode n tr last).2 = true) := by
  intro n
  induction n with
  | zero =>
    intro tr last hinv hok
    simp [openOrCreateLoop, createdInTrace, hinv]
  | succ n ih =>
    intro tr last hinv hok
    by_cases h1 : isExist (beh tr) = false
    · rw [openOrCreateLoop_succ_create beh amode n tr last h1] at hok ⊢
      dsimp only at hok ⊢
      rw [createdInTrace, createdAux_append]
      simp [hinv, createdAux, isCreateCall_cx amode ha, hok]
    · have h1t : isExist (beh tr) = true := by
        revert h1; cases isExist (beh tr) <;> simp
      have hbtr : beh tr = some GoErr.exist := (isExist_eq_true_iff _).mp h1t
      by_cases h2 : isNotExist
          (beh (tr ++ [amode ||| os_O_CREATE ||| os_O_EXCL])) = false
      · rw [openOrCreateLoop_succ_open beh amode n tr last h1t h2] at hok ⊢
        dsimp only at hok ⊢
        rw [createdInTrace, createdAux_append, createdAux_append]
        simp [hinv, createdAux, hbtr, isCreateCall_plain amode ha]
      · have h2t : isNotExist
            (beh (tr ++ [amode ||| os_O_CREATE ||| os_O_EXCL])) = true := by
          revert h2
          cases isNotExist (beh (tr ++ [amode ||| os_O_CREATE ||| os_O_EXCL])) <;>
            simp
        have hbtr1 : beh (tr ++ [amode ||| os_O_CREATE ||| os_O_EXCL]) =
            some GoErr.notExist := (isNotExist_eq_true_iff _).mp h2t
        rw [openOrCreateLoop_succ_next beh amode n tr last h1t h2t] at hok ⊢
        apply ih _ _ ?_ hok
        rw [createdAux_append, createdAux_append]
        simp [hinv, createdAux, hbtr, hbtr1, isCreateCall_plain amode ha]

/-- C3 counterexample: with mode O_OPEN_OR_CREATE plus O_READWRITE and an
opener that always fails with an error that is neither IsExist nor
IsNotExist (a permission error), openOrCreateFile returns the boolean true
although no opener call succeeded, so no call created the object; the boolean
is therefore not true exactly when this call created the object. -/
theorem openOrCreateFile_created_cex :
    (openOrCreateFile (fun _ => some (GoErr.other "permission denied"))
      (O_OPEN_OR_CREATE ||| O_READWRITE)).1.1 = true ∧
    createdInTrace (fun _ => some (GoErr.other "permission denied"))
      (openOrCreateFile (fun _ => some (GoErr.other "permission denied"))
        (O_OPEN_OR_CREATE ||| O_READWRITE)).2 = false :=
  ⟨rfl, rfl⟩

/-- C3 amended: whenever openOrCreateFile returns a nil error, the returned
boolean is true exactly when this call is the one that created the object,
that is, when one of the create-exclusive opener calls of its trace returned
nil; when the returned error is not nil, the boolean may be true even though
nothing was created. -/
theorem openOrCreateFile_created_iff (mode : Nat)
    (beh : List Nat → Option GoErr)
    (hok : (openOrCreateFile beh mode).1.2 = none) :
    ((openOrCreateFile beh mode).1.1 = true ↔
      createdInTrace beh (openOrCreateFile beh mode).2 = true) := by
  by_cases hb1 : mode &&& (O_OPEN_ONLY ||| O_CREATE_ONLY) ≠ 0
  · unfold openOrCreateFile at hok ⊢
    rw [if_pos hb1] at hok ⊢
    cases hm : openModeToOsMode mode with
    | error e =>
      rw [hm] at hok
      simp at hok
    | ok osMode =>
      rw [hm] at hok
      dsimp only at hok ⊢
      split_ifs at hok ⊢ with he
      · dsimp only at hok ⊢
        rw [createdInTrace]
        simp only [createdAux, List.nil_append, Bool.or_false, he,
          beq_self_eq_true, Bool.and_true]
        rw [openModeToOsMode_createCall mode osMode hb1 hm]
      · dsimp only at hok
        exact absurd hok he
  · unfold openOrCreateFile at hok ⊢
    rw [if_neg hb1] at hok ⊢
    by_cases hb2 : mode &&& O_OPEN_OR_CREATE ≠ 0
    · rw [if_pos hb2] at hok ⊢
      cases ha : accessModeToOsMode mode with
      | error e =>
        rw [ha] at hok
        simp at hok
      | ok amode =>
        rw [ha] at hok
        dsimp only at hok ⊢
        exact openOrCreateLoop_created beh amode
          (accessModeToOsMode_ok_cases mode amode ha) openAttempts [] none rfl
          hok
    · rw [if_neg hb2] at hok
      simp at hok

/-- Witness for the amended C3: a create-only open whose opener succeeds did
create the object and the boolean is true. -/
theorem openOrCreateFile_created_iff_witness :
    ((openOrCreateFile (fun _ => none)
        (O_CREATE_ONLY ||| O_READWRITE)).1.1 = true ↔
      createdInTrace (fun _ => none)
        (openOrCreateFile (fun _ => none)
          (O_CREATE_ONLY ||| O_READWRITE)).2 = true) :=
  openOrCreateFile_created_iff (O_CREATE_ONLY ||| O_READWRITE)
    (fun _ => none) rfl

theorem natToBytes_length (w : Nat) : ∀ v, (natToBytes w v).length = w := by
  induction w with
  | zero => intro v; rfl
  | succ w ih => intro v; simp [natToBytes, ih]

theorem bytesToNat_natToBytes (w : Nat) :
    ∀ v, v < 256 ^ w → bytesToNat (natToBytes w v) = v := by
  induction w with
  | zero =>
    intro v hv
    simp only [natToBytes, bytesToNat]
    omega
  | succ w ih =>
    intro v hv
    have hdiv : v / 256 < 256 ^ w := by
      rw [Nat.div_lt_iff_lt_mul (by omega)]
      calc v < 256 ^ (w + 1) := hv
        _ = 256 ^ w * 256 := by rw [Nat.pow_succ]
    simp only [natToBytes, bytesToNat]
    rw [ih (v / 256) hdiv]
    omega

mutual

theorem readVal_serialize :
    ∀ (v : FlatVal) (extra : List Nat), validVal v = true →
    readVal (shapeOf v) (serialize v ++ extra) = some (v, extra)
  | FlatVal.word w val, extra, h => by
    simp only [shapeOf, serialize, readVal]
    have hnb : (natToBytes w val).length = w := natToBytes_length w val
    have hlen : w ≤ (natToBytes w val ++ extra).length := by
      rw [List.length_append, hnb]
      omega
    rw [if_pos hlen, take_append_length _ _ _ hnb, drop_append_length _ _ _ hnb,
      bytesToNat_natToBytes w val (by simpa [validVal] using h)]
  | FlatVal.agg es, extra, h => by
    simp only [shapeOf, serialize, readVal]
    rw [readList_serializeList es extra (by simpa [validVal] using h)]

theorem readList_serializeList :
    ∀ (vs : List FlatVal) (extra : List Nat), validList vs = true →
    readList (shapeOfList vs) (serializeList vs ++ extra) = some (vs, extra)
  | [], extra, _ => by
    simp [shapeOfList, serializeList, readList]
  | v :: vs, extra, h => by
    have hsplit : validVal v = true ∧ validList vs = true := by
      simpa [validList, Bool.and_eq_true] using h
    simp only [shapeOfList, serializeList, readList]
    rw [List.append_assoc,
      readVal_serialize v (serializeList vs ++ extra) hsplit.1]
    dsimp only
    rw [readList_serializeList vs extra hsplit.2]

end

/-- C4: for every wellformed flat value and every buffer at least as long as
its footprint, writeInto succeeds writing exactly footprint bytes at offset
zero with no partial write and no change to the rest of the buffer, and
reading the buffer back at the shape of the value yields a value equal to
the one written. -/
theorem writeInto_readFrom_roundtrip (v : FlatVal) (buf : List Nat)
    (hval : validVal v = true) (hlen : footprint v ≤ buf.length) :
    roundtripSpec v buf := by
  have hfp : (serialize v).length = footprint v := rfl
  refine ⟨?_, ?_, ?_, ?_, ?_⟩
  · unfold writeInto
    rw [if_neg (by omega)]
  · rw [List.length_append, List.length_drop, hfp]
    omega
  · exact take_append_length _ _ _ hfp
  · exact drop_append_length _ _ _ hfp
  · unfold readFrom
    rw [readVal_serialize v _ hval]

/-- Witness for C4: a two-field aggregate written into a five-byte buffer. -/
theorem writeInto_readFrom_roundtrip_witness :
    roundtripSpec (FlatVal.agg [FlatVal.word 2 300, FlatVal.word 1 7])
      [9, 9, 9, 9, 9] :=
  writeInto_readFrom_roundtrip
    (FlatVal.agg [FlatVal.word 2 300, FlatVal.word 1 7]) [9, 9, 9, 9, 9]
    (by decide) (by decide)

mutual

theorem checkType_pos : ∀ (t : GoType) (d : Nat), checkType t (d + 1) = flat t
  | GoType.num, _ => rfl
  | GoType.mutex, _ => rfl
  | GoType.ptr _, _ => rfl
  | GoType.str, _ => rfl
  | GoType.hashmap _ _, _ => rfl
  | GoType.array _ e, d => by
    simp only [checkType, flat]
    exact checkType_pos e (d + 1)
  | GoType.slice _, d => by
    simp only [checkType, flat]
    rw [if_neg (by omega)]
  | GoType.strct fs, d => by
    simp only [checkType, flat]
    exact checkFields_flat fs (d + 1)

theorem checkFields_flat :
    ∀ (fs : List GoType) (d : Nat), checkFields fs d = flatFields fs
  | [], _ => rfl
  | f :: fs, d => by
    simp only [checkFields, flatFields]
    rw [checkType_pos f d, checkFields_flat fs d]

end

/-- C5 counterexample: a top-level slice of a flat element type is accepted
by checkObject (assertion checkObject(arr[:]) of TestCheckObjectType,
src/unnamed/part_001 line 40), contradicting the claim that every value
containing a growable sequence at any nesting depth is rejected. -/
theorem checkObject_slice_cex : checkObject (GoType.slice GoType.num) = true :=
  rfl

/-- C5 amended: checkObject accepts a type exactly when it is flat (built
only from fixed-width numeric scalars, the whitelisted sync.Mutex,
fixed-size arrays of flat types, and structs all of whose fields are flat),
or is a top-level slice of a flat element type; every pointer, string or map
at any depth, and every slice below the top level, including a struct one of
whose fields is a slice, is rejected. -/
theorem checkObject_iff (t : GoType) :
    checkObject t = true ↔
      (flat t = true ∨ ∃ e, t = GoType.slice e ∧ flat e = true) := by
  cases t with
  | num => simp [checkObject, checkType, flat]
  | mutex => simp [checkObject, checkType, flat]
  | ptr e => simp [checkObject, checkType, flat]
  | str => simp [checkObject, checkType, flat]
  | hashmap k v => simp [checkObject, checkType, flat]
  | array n e =>
    have h := checkType_pos e 0
    simp [checkObject, checkType, flat, h]
  | slice e =>
    have h := checkType_pos e 0
    simp [checkObject, checkType, flat, h]
  | strct fs =>
    have h := checkFields_flat fs 0
    simp [checkObject, checkType, flat, h]
